import Mathlib

/-!
Verification of the tile-to-region resolution engine of `src/main.py`
(an XYZ-tile → WMS proxy).  The Python source is shallowly embedded:

* the static configuration tables (`PROVINCE_GROUPS`, `CODE_TO_GROUP`,
  lines 12–22) become association lists of strings;
* the projection math (`calculate_bbox`, `mercator_to_lnglat`,
  lines 101–137) becomes exact real arithmetic over `ℝ`;
* the resolver `get_province_group` (lines 139–221) is embedded with the
  Region Index — the geometry table loaded at startup from an external
  GeoJSON file, which is not part of the repository — abstracted as an
  association list from region code to a containment predicate on points,
  exactly the interface (`geometry.contains(point)`) the resolver uses;
* the request-building string construction of `wms_to_xyz`
  (lines 223–241) and the error handling of the `get_tile` endpoint
  (lines 252–263) become pure functions, with the upstream HTTP fetch
  abstracted as an `Except` outcome.
-/

namespace UomProxy

/-- Embeds `PROVINCE_GROUPS` (main.py lines 12–19): the static mapping from
group name to the list of two-digit province codes, in source order. -/
def PROVINCE_GROUPS : List (String × List String) :=
  [ ("north",     ["12", "13", "14", "15"]),
    ("northeast", ["21", "22", "23"]),
    ("east",      ["31", "32", "33", "34", "35", "36", "37"]),
    ("central",   ["41", "42", "43", "44", "45", "46"]),
    ("southwest", ["50", "51", "52", "53", "54"]),
    ("northwest", ["62", "63", "64", "65"]) ]

/-- Embeds the dict comprehension building `CODE_TO_GROUP` (line 22):
one `(code, group)` pair per code of every group, in source order. -/
def CODE_TO_GROUP : List (String × String) :=
  PROVINCE_GROUPS.flatMap (fun e => e.2.map (fun c => (c, e.1)))

/-- Embeds `CODE_TO_GROUP.get(code, ...)` lookups: the group of a province
code, if any.  (The Python dict has no duplicate keys, so first-match
lookup agrees with the dict.) -/
def codeToGroup (c : String) : Option String :=
  (CODE_TO_GROUP.find? (fun e => e.1 == c)).map Prod.snd

/-- Embeds `PROVINCE_GROUPS.get(group, [])` (line 218): the code list of a
group name, `[]` when the name is not a configured group. -/
def groupCodes (g : String) : List String :=
  ((PROVINCE_GROUPS.find? (fun e => e.1 == g)).map Prod.snd).getD []

/-- Embeds `sum(PROVINCE_GROUPS.values(), [])` (line 142): the
concatenation of all configured code lists. -/
def allCodes : List String :=
  (PROVINCE_GROUPS.map Prod.snd).flatten

/-- The Region Index (`province_geometries`, line 25): an association list
from region code to a containment predicate on points, in the insertion
order the resolver iterates it.  The geometries themselves are loaded from
an external GeoJSON file outside the repository, so only the containment
interface `geometry.contains(point)` is modelled. -/
def RegionIndex (P : Type) : Type := List (String × (P → Bool))

/-- Embeds the inner loop over `province_geometries.items()` with its
`break` (lines 170–173): the first code in index order whose geometry
contains the point, if any. -/
def matchPoint {P : Type} (idx : RegionIndex P) (p : P) : Option String :=
  match idx with
  | [] => none
  | (code, geom) :: rest => if geom p then some code else matchPoint rest p

/-- Python `set.add` on the matched set, modelled on lists preserving
first-insertion order: append the code when it is not yet present. -/
def insertNew (matched : List String) (c : String) : List String :=
  if c ∈ matched then matched else matched ++ [c]

/-- Embeds the coarse sampling loop (lines 167–173): fold over the sample
points, adding each point's first-matching code to the matched set. -/
def coarseLoop {P : Type} (idx : RegionIndex P) :
    List P → List String → List String
  | [], matched => matched
  | p :: rest, matched =>
      coarseLoop idx rest
        (match matchPoint idx p with
         | some c => insertNew matched c
         | none => matched)

/-- The matched set produced by the coarse 9-point sampling phase
(`matched_provinces` after lines 167–173), starting from the empty set. -/
def coarseMatched {P : Type} (idx : RegionIndex P) (pts : List P) :
    List String :=
  coarseLoop idx pts []

/-- Embeds the dense-sampling matching loop (lines 192–200): per point,
add the first-matching code, and stop as soon as the matched set is
non-empty (the trailing `break`). -/
def denseLoop {P : Type} (idx : RegionIndex P) :
    List P → List String → List String
  | [], matched => matched
  | p :: rest, matched =>
      let matched' :=
        match matchPoint idx p with
        | some c => insertNew matched c
        | none => matched
      if matched'.isEmpty then denseLoop idx rest matched' else matched'

/-- The dense phase entered with the empty matched set (guard at
line 176 guarantees the set is empty when lines 178–200 run). -/
def denseMatched {P : Type} (idx : RegionIndex P) (pts : List P) :
    List String :=
  denseLoop idx pts []

/-- Embeds the group expansion step (lines 216–218): collect the group of
every matched code (`'unknown'` when the code has no group), then
concatenate the code lists of the collected groups. -/
def groupExpand (matched : List String) : List String :=
  let groups :=
    matched.foldl (fun acc c => insertNew acc ((codeToGroup c).getD "unknown")) []
  (groups.map groupCodes).flatten

/-- A Web Mercator bounding box in meters, the `(minx, miny, maxx, maxy)`
tuple returned by `calculate_bbox`. -/
structure BBox where
  minx : ℝ
  miny : ℝ
  maxx : ℝ
  maxy : ℝ

/-- Embeds `calculate_bbox` (lines 101–129): the EPSG:3857 bounding box of
a Google/XYZ tile, over exact reals. -/
noncomputable def calculate_bbox (z x y tile_size : ℕ) : BBox :=
  let earth_radius : ℝ := 6378137
  let origin_shift : ℝ := 2 * Real.pi * earth_radius / 2
  let res : ℝ := (2 * origin_shift) / ((tile_size : ℝ) * 2 ^ z)
  { minx := (x : ℝ) * (tile_size : ℝ) * res - origin_shift,
    maxx := ((x : ℝ) + 1) * (tile_size : ℝ) * res - origin_shift,
    miny := origin_shift - ((y : ℝ) + 1) * (tile_size : ℝ) * res,
    maxy := origin_shift - (y : ℝ) * (tile_size : ℝ) * res }

/-- Embeds `mercator_to_lnglat` (lines 132–137): EPSG:3857 meters to
longitude/latitude degrees, over exact reals. -/
noncomputable def mercator_to_lnglat (x y : ℝ) : ℝ × ℝ :=
  let earth_radius : ℝ := 6378137
  ((x / earth_radius) * 180 / Real.pi,
   (Real.arctan (Real.exp (y / earth_radius)) * 2 - Real.pi / 2) * 180 / Real.pi)

/-- The tile's center sample point `points[0]` (lines 152–154). -/
noncomputable def tileCenter (z x y : ℕ) : ℝ × ℝ :=
  let b := calculate_bbox z x y 256
  mercator_to_lnglat ((b.minx + b.maxx) / 2) ((b.miny + b.maxy) / 2)

/-- Embeds the 9-element sample list `points` (lines 152–164): center,
four corners, four edge midpoints, in source order. -/
noncomputable def samplePoints (z x y : ℕ) : List (ℝ × ℝ) :=
  let b := calculate_bbox z x y 256
  [ tileCenter z x y,
    mercator_to_lnglat b.minx b.miny,
    mercator_to_lnglat b.maxx b.miny,
    mercator_to_lnglat b.minx b.maxy,
    mercator_to_lnglat b.maxx b.maxy,
    mercator_to_lnglat ((b.minx + b.maxx) / 2) b.miny,
    mercator_to_lnglat ((b.minx + b.maxx) / 2) b.maxy,
    mercator_to_lnglat b.minx ((b.miny + b.maxy) / 2),
    mercator_to_lnglat b.maxx ((b.miny + b.maxy) / 2) ]

/-- Embeds the `edge_points` generation (lines 178–189): for each
`i ∈ range(0, 256, 10)` two points at pixel rows 0 and 255, followed by
26 points on the left edge when `i = 0` and on the right edge otherwise. -/
noncomputable def edgePointsOf (z x y : ℕ) : List (ℝ × ℝ) :=
  let b := calculate_bbox z x y 256
  (List.range 26).flatMap (fun i =>
    (([0, 255] : List ℕ).map (fun j =>
      mercator_to_lnglat (b.minx + (b.maxx - b.minx) * ((10 * i : ℕ) : ℝ) / 256)
        (b.miny + (b.maxy - b.miny) * ((j : ℕ) : ℝ) / 256)))
    ++ (List.range 26).map (fun j =>
      mercator_to_lnglat (if i = 0 then b.minx else b.maxx)
        (b.miny + (b.maxy - b.miny) * ((10 * j : ℕ) : ℝ) / 256)))

/-- Embeds the longitude/latitude heuristic bucketing (lines 205–213):
hand-tuned rectangles, each mapped to one configured group.  Source
accesses `PROVINCE_GROUPS[...]` at keys that are all present, which agrees
with `groupCodes`. -/
noncomputable def fallback_logic (lng lat : ℝ) : List String :=
  if lat > 40 ∧ lng < 125 then groupCodes "northeast"
  else if lng < 105 then
    (if lat > 38 then groupCodes "northwest" else groupCodes "southwest")
  else if lng < 115 then groupCodes "central"
  else if lng < 122 then groupCodes "east"
  else groupCodes "north"

/-- Embeds `get_province_group` (lines 139–221): low-zoom shortcut,
coarse 9-point sampling, dense perimeter sampling when coarse finds
nothing, heuristic bucketing of the center point when both find nothing,
and group expansion of a non-empty matched set. -/
noncomputable def get_province_group (idx : RegionIndex (ℝ × ℝ))
    (z x y : ℕ) : List String :=
  if z < 6 then allCodes
  else
    let matched := coarseMatched idx (samplePoints z x y)
    let matched :=
      if matched.isEmpty then denseLoop idx (edgePointsOf z x y) matched
      else matched
    if matched.isEmpty then
      let c := tileCenter z x y
      fallback_logic c.1 c.2
    else groupExpand matched

/-- Embeds the layer f-string of `wms_to_xyz` (line 226). -/
def layerName (code : String) : String :=
  "QGSFKYFW:sf" ++ code ++ "0000"

/-- Embeds `layers = ",".join([... for code in provinces])` (line 226). -/
def wms_layers (provinces : List String) : String :=
  String.intercalate "," (provinces.map layerName)

/-- Embeds `styles = ",".join([style] * len(provinces))` (line 227). -/
def wms_styles (provinces : List String) : String :=
  String.intercalate "," (List.replicate provinces.length "QGSFKYFW:shifeikongyu")

/-- The fixed 1×1 transparent PNG byte literal returned on error
(line 261), as its list of byte values. -/
def TRANSPARENT_PNG : List Nat :=
  [0x89, 0x50, 0x4E, 0x47, 0x0D, 0x0A, 0x1A, 0x0A,
   0x00, 0x00, 0x00, 0x0D, 0x49, 0x48, 0x44, 0x52,
   0x00, 0x00, 0x00, 0x01, 0x00, 0x00, 0x00, 0x01,
   0x08, 0x06, 0x00, 0x00, 0x00, 0x1F, 0x15, 0xC4,
   0x89, 0x00, 0x00, 0x00, 0x0A, 0x49, 0x44, 0x41,
   0x54, 0x78, 0x9C, 0x63, 0x00, 0x01, 0x00, 0x00,
   0x05, 0x00, 0x01, 0x0D, 0x0A, 0x2D, 0xB4, 0x00,
   0x00, 0x00, 0x00, 0x49, 0x45, 0x4E, 0x44, 0xAE,
   0x42, 0x60, 0x82]

/-- An HTTP response of the tile endpoint: body bytes, status code,
Content-Type header. -/
structure TileResponse where
  body : List Nat
  status : Nat
  contentType : String

/-- Embeds the `get_tile` endpoint (lines 252–263).  The `try` block's
outcome — the upstream bytes returned by `wms_to_xyz`, or any exception
raised during resolution or fetch — is abstracted as an `Except` value,
since the fetch is external I/O. -/
def get_tile (attempt : Except String (List Nat)) : TileResponse :=
  match attempt with
  | Except.ok bytes => { body := bytes, status := 200, contentType := "image/png" }
  | Except.error _ =>
      { body := TRANSPARENT_PNG, status := 200, contentType := "image/png" }

/-- The constantly-true containment predicate: a geometry that contains
every point, standing for a polygon covering the whole sampled area. -/
def trueGeom : (ℝ × ℝ) → Bool := fun _ => true

/-- Membership in the matched set after a `set.add`. -/
theorem mem_insertNew (l : List String) (b a : String) :
    a ∈ insertNew l b ↔ a ∈ l ∨ a = b := by
  unfold insertNew
  by_cases hb : b ∈ l
  · simp only [if_pos hb]
    constructor
    · exact Or.inl
    · rintro (h | rfl)
      · exact h
      · exact hb
  · simp [if_neg hb]

/-- Membership in the coarse loop's result: an element is either already
in the accumulator or is some point's first match. -/
theorem coarseLoop_mem {P : Type} (idx : RegionIndex P) (pts : List P)
    (acc : List String) (c : String) :
    c ∈ coarseLoop idx pts acc ↔
      c ∈ acc ∨ ∃ p ∈ pts, matchPoint idx p = some c := by
  induction pts generalizing acc with
  | nil => simp [coarseLoop]
  | cons p rest ih =>
    unfold coarseLoop
    cases hm : matchPoint idx p with
    | none =>
      rw [ih]
      simp only [List.mem_cons]
      constructor
      · rintro (h | ⟨q, hq, hqc⟩)
        · exact Or.inl h
        · exact Or.inr ⟨q, Or.inr hq, hqc⟩
      · rintro (h | ⟨q, hq | hq, hqc⟩)
        · exact Or.inl h
        · subst hq; rw [hm] at hqc; cases hqc
        · exact Or.inr ⟨q, hq, hqc⟩
    | some d =>
      rw [ih]
      simp only [mem_insertNew, List.mem_cons]
      constructor
      · rintro ((h | rfl) | ⟨q, hq, hqc⟩)
        · exact Or.inl h
        · exact Or.inr ⟨p, Or.inl rfl, hm⟩
        · exact Or.inr ⟨q, Or.inr hq, hqc⟩
      · rintro (h | ⟨q, hq | hq, hqc⟩)
        · exact Or.inl (Or.inl h)
        · subst hq; rw [hm] at hqc
          exact Or.inl (Or.inr (Option.some.inj hqc).symm)
        · exact Or.inr ⟨q, hq, hqc⟩

/-- With an empty Region Index no point matches. -/
theorem matchPoint_nil {P : Type} (p : P) :
    matchPoint ([] : RegionIndex P) p = none := rfl

/-- With an empty Region Index the coarse phase matches nothing. -/
theorem coarseMatched_nil_idx {P : Type} (pts : List P) :
    coarseMatched ([] : RegionIndex P) pts = [] := by
  have h : ∀ acc, coarseLoop ([] : RegionIndex P) pts acc = acc := by
    induction pts with
    | nil => intro acc; rfl
    | cons p rest ih => intro acc; exact ih acc
  exact h []

/-- With an empty Region Index the dense phase matches nothing. -/
theorem denseMatched_nil_idx {P : Type} (pts : List P) :
    denseMatched ([] : RegionIndex P) pts = [] := by
  unfold denseMatched
  induction pts with
  | nil => rfl
  | cons p rest ih => exact ih

/-- C1, counterexample: on tile (6, 0, 0) with a Region Index whose
geometries for codes "21" and "31" both contain every point (so both
contain the center sample point `points[0]`), the matched set of the
coarse phase is only `["21"]` — the inner `break` at line 173 keeps only
the first matching code per sample point, so "31" is dropped, refuting
"all of those RegionCodes are kept, with no single-winner tie-break". -/
theorem C1_counterexample :
    trueGeom (tileCenter 6 0 0) = true ∧
    tileCenter 6 0 0 ∈ samplePoints 6 0 0 ∧
    coarseMatched [("21", trueGeom), ("31", trueGeom)] (samplePoints 6 0 0) =
      ["21"] ∧
    "31" ∉ coarseMatched [("21", trueGeom), ("31", trueGeom)]
      (samplePoints 6 0 0) := by
  refine ⟨rfl, List.mem_cons_self _ _, rfl, ?_⟩
  have h : coarseMatched [("21", trueGeom), ("31", trueGeom)]
      (samplePoints 6 0 0) = ["21"] := rfl
  rw [h]
  decide

/-- C1, amended: for each sample point the coarse phase keeps only the
first RegionCode in Region-Index iteration order whose geometry contains
the point (the inner loop breaks on a match); the matched set is exactly
the set of these per-point first matches over the sample points. -/
theorem C1_per_point_first_match {P : Type} (idx : RegionIndex P)
    (pts : List P) (c : String) :
    c ∈ coarseMatched idx pts ↔ ∃ p ∈ pts, matchPoint idx p = some c := by
  unfold coarseMatched
  rw [coarseLoop_mem]
  simp

/-- C1, witness for the amended theorem: on tile (6, 0, 0) with a single
all-containing geometry for code "21", the coarse matched set contains
"21", via the first-match characterisation at the center point. -/
theorem C1_per_point_first_match_witness :
    "21" ∈ coarseMatched [("21", trueGeom)] (samplePoints 6 0 0) :=
  (C1_per_point_first_match [("21", trueGeom)] (samplePoints 6 0 0) "21").mpr
    ⟨tileCenter 6 0 0, List.mem_cons_self _ _, rfl⟩

/-- C2: for zoom below 6 the resolver returns the concatenation of all
configured RegionCodes, for every Region Index and every x, y. -/
theorem C2_low_zoom_all_codes (idx : RegionIndex (ℝ × ℝ)) (z x y : ℕ)
    (hz : z < 6) :
    get_province_group idx z x y = allCodes := by
  unfold get_province_group
  rw [if_pos hz]

/-- C2, witness: at zoom 0 and tile (3, 5) with the empty Region Index the
resolver returns all configured codes. -/
theorem C2_low_zoom_all_codes_witness :
    0 < 6 ∧ get_province_group [] 0 3 5 = allCodes :=
  ⟨by decide, C2_low_zoom_all_codes [] 0 3 5 (by decide)⟩

/-- C3: when the coarse 9-point sampling yields a non-empty matched set,
the resolver's result is the group expansion of exactly that set — an
expression free of the dense perimeter sampling and of the heuristic
bucketing, so neither fallback influences the result. -/
theorem C3_first_success_wins (idx : RegionIndex (ℝ × ℝ)) (z x y : ℕ)
    (hz : 6 ≤ z) (hne : coarseMatched idx (samplePoints z x y) ≠ []) :
    get_province_group idx z x y =
      groupExpand (coarseMatched idx (samplePoints z x y)) := by
  have hz' : ¬ z < 6 := not_lt.mpr hz
  have he : (coarseMatched idx (samplePoints z x y)).isEmpty = false := by
    simpa [List.isEmpty_iff] using hne
  unfold get_province_group
  rw [if_neg hz']
  simp [he]

/-- C3, witness: on tile (6, 0, 0) with one all-containing geometry the
coarse phase succeeds and the result is its group expansion. -/
theorem C3_first_success_wins_witness :
    6 ≤ 6 ∧ coarseMatched [("21", trueGeom)] (samplePoints 6 0 0) ≠ [] ∧
    get_province_group [("21", trueGeom)] 6 0 0 =
      groupExpand (coarseMatched [("21", trueGeom)] (samplePoints 6 0 0)) := by
  have hne : coarseMatched [("21", trueGeom)] (samplePoints 6 0 0) ≠ [] := by
    decide
  exact ⟨le_refl 6, hne, C3_first_success_wins _ 6 0 0 (le_refl 6) hne⟩

/-- Membership in a fold of `set.add`s of mapped elements. -/
theorem mem_foldl_insertNew (f : String → String) (l acc : List String)
    (a : String) :
    a ∈ l.foldl (fun acc c => insertNew acc (f c)) acc ↔
      a ∈ acc ∨ ∃ m ∈ l, f m = a := by
  induction l generalizing acc with
  | nil => simp
  | cons c rest ih =>
    rw [List.foldl_cons, ih, mem_insertNew]
    simp only [List.mem_cons]
    constructor
    · rintro ((h | rfl) | ⟨m, hm, hfa⟩)
      · exact Or.inl h
      · exact Or.inr ⟨c, Or.inl rfl, rfl⟩
      · exact Or.inr ⟨m, Or.inr hm, hfa⟩
    · rintro (h | ⟨m, hm | hm, hfa⟩)
      · exact Or.inl (Or.inl h)
      · subst hm; exact Or.inl (Or.inr hfa.symm)
      · exact Or.inr ⟨m, hm, hfa⟩

/-- The pseudo-group name `"unknown"` is not a configured group, so its
code list is empty. -/
theorem groupCodes_unknown : groupCodes "unknown" = [] := by decide

/-- C4: a code is in the expanded result exactly when some matched code's
group contains it — the result is the union of the whole code lists of the
groups of the matched codes, and matched codes without a group contribute
nothing. -/
theorem C4_group_expansion (matched : List String) (c : String) :
    c ∈ groupExpand matched ↔
      ∃ m ∈ matched, ∃ g, codeToGroup m = some g ∧ c ∈ groupCodes g := by
  unfold groupExpand
  simp only [List.mem_flatten, List.mem_map]
  constructor
  · rintro ⟨l, ⟨g, hg, rfl⟩, hc⟩
    rw [mem_foldl_insertNew] at hg
    rcases hg with h | ⟨m, hm, hgm⟩
    · cases h
    · cases hcg : codeToGroup m with
      | none =>
        rw [hcg] at hgm
        simp only [Option.getD_none] at hgm
        subst hgm
        rw [groupCodes_unknown] at hc
        cases hc
      | some g' =>
        rw [hcg] at hgm
        simp only [Option.getD_some] at hgm
        subst hgm
        exact ⟨m, hm, g', hcg, hc⟩
  · rintro ⟨m, hm, g, hcg, hc⟩
    refine ⟨groupCodes g, ⟨g, ?_, rfl⟩, hc⟩
    rw [mem_foldl_insertNew]
    exact Or.inr ⟨m, hm, by rw [hcg, Option.getD_some]⟩

/-- C4, witness: matching the single code "21" yields a result containing
"22", a different member of the same group "northeast". -/
theorem C4_group_expansion_witness : "22" ∈ groupExpand ["21"] :=
  (C4_group_expansion ["21"] "22").mpr
    ⟨"21", List.mem_cons_self _ _, "northeast", by decide, by decide⟩

/-- The heuristic bucketing always returns a non-empty configured group. -/
theorem fallback_logic_ne_nil (lng lat : ℝ) : fallback_logic lng lat ≠ [] := by
  unfold fallback_logic
  split_ifs <;> decide

/-- C5: when both geometry-based phases match nothing, the resolver
terminates with the heuristic bucketing of the tile's center point, and
that result is never empty. -/
theorem C5_heuristic_default (idx : RegionIndex (ℝ × ℝ)) (z x y : ℕ)
    (hz : 6 ≤ z)
    (hc : coarseMatched idx (samplePoints z x y) = [])
    (hd : denseMatched idx (edgePointsOf z x y) = []) :
    get_province_group idx z x y =
      fallback_logic (tileCenter z x y).1 (tileCenter z x y).2 ∧
    get_province_group idx z x y ≠ [] := by
  have hz' : ¬ z < 6 := not_lt.mpr hz
  have hd' : denseLoop idx (edgePointsOf z x y) [] = [] := hd
  have heq : get_province_group idx z x y =
      fallback_logic (tileCenter z x y).1 (tileCenter z x y).2 := by
    unfold get_province_group
    rw [if_neg hz']
    simp [hc, hd']
  exact ⟨heq, heq ▸ fallback_logic_ne_nil _ _⟩

/-- C5, witness: with the empty Region Index (the total-load-failure,
mid-ocean-like situation) tile (6, 0, 0) resolves to the heuristic result,
which is non-empty. -/
theorem C5_heuristic_default_witness :
    6 ≤ 6 ∧
    coarseMatched ([] : RegionIndex (ℝ × ℝ)) (samplePoints 6 0 0) = [] ∧
    denseMatched ([] : RegionIndex (ℝ × ℝ)) (edgePointsOf 6 0 0) = [] ∧
    (get_province_group [] 6 0 0 =
       fallback_logic (tileCenter 6 0 0).1 (tileCenter 6 0 0).2 ∧
     get_province_group [] 6 0 0 ≠ []) :=
  ⟨le_refl 6, coarseMatched_nil_idx _, denseMatched_nil_idx _,
   C5_heuristic_default [] 6 0 0 (le_refl 6) (coarseMatched_nil_idx _)
     (denseMatched_nil_idx _)⟩

/-- C6: the static configuration is a partition of the configured codes:
the concatenation of all group code lists has no duplicate (no code is in
two groups, nor twice in one), every configured code has a group, and the
code-to-group table's keys are exactly the configured codes in order. -/
theorem C6_partition_static_config :
    allCodes.Nodup ∧
    allCodes.all (fun c => (codeToGroup c).isSome) = true ∧
    CODE_TO_GROUP.map Prod.fst = allCodes := by decide

/-- C7: province codes "11" and "61" have no configured group, and a
Region Index whose only matching geometry carries code "11" makes the
resolver return the empty code list on tile (6, 0, 0): the matched code
expands to the pseudo-group `"unknown"`, whose code list is empty. -/
theorem C7_unknown_codes_empty_result :
    codeToGroup "11" = none ∧ codeToGroup "61" = none ∧
    get_province_group [("11", trueGeom)] 6 0 0 = [] :=
  ⟨by decide, by decide, rfl⟩

/-- C8: the builder derives one layer per code (same length, and the
layer at position i is the naming convention applied to the code at
position i), one style per layer (the constant style replicated), and on
codes ["11", "12"] emits exactly two comma-joined layer entries and two
identical comma-joined style entries, in input order. -/
theorem C8_request_builder :
    (∀ (provinces : List String) (i : ℕ),
        (provinces.map layerName).length = provinces.length ∧
        (provinces.map layerName)[i]? = provinces[i]?.map layerName ∧
        (List.replicate provinces.length "QGSFKYFW:shifeikongyu")[i]? =
          (if i < provinces.length then some "QGSFKYFW:shifeikongyu"
           else none)) ∧
    ["11", "12"].map layerName = ["QGSFKYFW:sf110000", "QGSFKYFW:sf120000"] ∧
    wms_layers ["11", "12"] =
      "QGSFKYFW:sf110000" ++ "," ++ "QGSFKYFW:sf120000" ∧
    wms_styles ["11", "12"] =
      "QGSFKYFW:shifeikongyu" ++ "," ++ "QGSFKYFW:shifeikongyu" := by
  refine ⟨fun provinces i =>
    ⟨List.length_map .., List.getElem?_map .., List.getElem?_replicate ..⟩,
    by decide, by decide, by decide⟩

/-- C9: horizontally adjacent tiles at the same zoom share exactly one
edge (the first box's maxx is the second's minx), and every box is proper
(minx < maxx and miny < maxy). -/
theorem C9_bbox_adjacency (z x y : ℕ) :
    (calculate_bbox z x y 256).maxx = (calculate_bbox z (x + 1) y 256).minx ∧
    (calculate_bbox z x y 256).minx < (calculate_bbox z x y 256).maxx ∧
    (calculate_bbox z x y 256).miny < (calculate_bbox z x y 256).maxy := by
  simp only [calculate_bbox]
  push_cast
  refine ⟨by ring, ?_, ?_⟩
  · have h : (0 : ℝ) < 2 * (2 * Real.pi * 6378137 / 2) / ((256 : ℝ) * 2 ^ z) := by
      positivity
    nlinarith [h]
  · have h : (0 : ℝ) < 2 * (2 * Real.pi * 6378137 / 2) / ((256 : ℝ) * 2 ^ z) := by
      positivity
    nlinarith [h]

/-- C9, witness: the adjacency and properness facts at the concrete tile
(6, 0, 0), by instantiating the general theorem. -/
theorem C9_bbox_adjacency_witness :
    (calculate_bbox 6 0 0 256).maxx = (calculate_bbox 6 1 0 256).minx ∧
    (calculate_bbox 6 0 0 256).minx < (calculate_bbox 6 0 0 256).maxx ∧
    (calculate_bbox 6 0 0 256).miny < (calculate_bbox 6 0 0 256).maxy :=
  C9_bbox_adjacency 6 0 0

/-- C10: the tile endpoint always answers status 200 with Content-Type
image/png; the body is the upstream bytes on success and the fixed 1×1
transparent PNG literal on any failure. -/
theorem C10_endpoint_always_200 (attempt : Except String (List Nat)) :
    (get_tile attempt).status = 200 ∧
    (get_tile attempt).contentType = "image/png" ∧
    ((∃ bytes, attempt = Except.ok bytes ∧ (get_tile attempt).body = bytes) ∨
     (∃ e, attempt = Except.error e ∧
        (get_tile attempt).body = TRANSPARENT_PNG)) := by
  cases attempt with
  | ok b => exact ⟨rfl, rfl, Or.inl ⟨b, rfl, rfl⟩⟩
  | error e => exact ⟨rfl, rfl, Or.inr ⟨e, rfl, rfl⟩⟩

/-- C10, witness: on a failed fetch the endpoint answers 200, image/png,
with the transparent-PNG body, by instantiating the general theorem. -/
theorem C10_endpoint_always_200_witness :
    (get_tile (Except.error "upstream failure")).status = 200 ∧
    (get_tile (Except.error "upstream failure")).contentType = "image/png" ∧
    (get_tile (Except.error "upstream failure")).body = TRANSPARENT_PNG :=
  ⟨(C10_endpoint_always_200 (Except.error "upstream failure")).1,
   (C10_endpoint_always_200 (Except.error "upstream failure")).2.1, rfl⟩

end UomProxy
